import Mathlib

/-!
Verification development for the transaction-ledger specification of
`rust-cargo-lock-corruption` (source: `src/src/main.rs`).

The source file defines the `Transaction` record and the
`TransactionStatus` enum, plus a harness `main` that inserts a single
transaction into a `HashMap` keyed by its own id.  The ledger object with
its `create` / `insert` / `get` / `transition` / `count` operations and
the error taxonomy exist only in the specification (the spec itself notes
it invents the minimum sensible contract), so those operations are
modelled from the spec below; the data model is translated from the
source.

Embedding choices:
* `Uuid` ids are modelled as `Nat` (ids are only generated fresh and
  compared for equality).
* `f64` amounts are modelled by the inductive `Amount`, which separates
  the finite values (as rationals) from the non-finite IEEE values
  (`nan`, `posInf`, `negInf`); no arithmetic is performed on amounts in
  the program, only validation and equality.
* `DateTime<Utc>` timestamps are modelled as `Nat` (they are only
  captured at creation and compared for equality).
* The `HashMap<Uuid, Transaction>` is modelled as an association list
  with a no-duplicate-keys invariant; insertion order is not
  semantically significant per the spec.
-/

/-- Lifecycle states of a transaction, translated from the source enum
`TransactionStatus` (src/src/main.rs lines 18-23): `Pending`,
`Completed`, `Failed`. -/
inductive TransactionStatus where
  | Pending
  | Completed
  | Failed
deriving DecidableEq, Repr

/-- Model of an `f64` amount: either a finite value (a rational) or one
of the non-finite IEEE values.  The program performs no arithmetic on
amounts, so this separation is all the claims need. -/
inductive Amount where
  | finite (q : ℚ)
  | nan
  | posInf
  | negInf
deriving DecidableEq, Repr

/-- An amount is finite exactly when it is a `finite` value. -/
def Amount.isFinite : Amount → Bool
  | .finite _ => true
  | _ => false

/-- The transaction record, translated from the source struct
`Transaction` (src/src/main.rs lines 9-16): id, amount, currency,
timestamp, status. -/
structure Transaction where
  id : Nat
  amount : Amount
  currency : String
  timestamp : Nat
  status : TransactionStatus
deriving DecidableEq, Repr

/-- Modelled from the spec: the error taxonomy of section 7 —
`InvalidAmount`, `InvalidCurrency` (construction-time validation
failures), `DuplicateId` (insertion conflict), `NotFound`
(lookup/transition on absent id), `InvalidTransition` (state-machine
violation).  No error type exists in the source. -/
inductive LedgerError where
  | InvalidAmount
  | InvalidCurrency
  | DuplicateId
  | NotFound
  | InvalidTransition
deriving DecidableEq, Repr

/-- Modelled from the spec: currency is "a short code (e.g., ISO
4217-style)"; a code is well-formed when it is exactly three uppercase
ASCII letters.  No currency validation exists in the source. -/
def currencyValid (c : String) : Bool :=
  c.length == 3 && c.toList.all (fun ch => ch.isUpper)

/-- Modelled from the spec: the domain policy on amounts — the amount
"must be finite"; negative and zero values are "treated as allowed
unless a stricter policy is added".  No amount validation exists in the
source. -/
def amountValid (a : Amount) : Bool :=
  a.isFinite

/-- Modelled from the spec: the permitted status transitions of the
state machine of section 4.1 — `Pending -> Completed` and
`Pending -> Failed`; no transition is defined out of `Completed` or
`Failed`. -/
def allowedTransition : TransactionStatus → TransactionStatus → Bool
  | .Pending, .Completed => true
  | .Pending, .Failed => true
  | _, _ => false

/-- A status is terminal when no transition is permitted out of it. -/
def TransactionStatus.isTerminal : TransactionStatus → Bool
  | .Completed => true
  | .Failed => true
  | .Pending => false

/-- Lookup in an association list of transactions keyed by id.  Models
`HashMap::get` on the map used by the harness (src/src/main.rs line 31). -/
def lookupTx : List (Nat × Transaction) → Nat → Option Transaction
  | [], _ => none
  | (k, tx) :: rest, id => if k = id then some tx else lookupTx rest id

/-- Modelled from the spec: the Transaction Ledger of section 4.1 —
"mapping from transaction id to Transaction record", together with the
fresh-id source used by `create` ("generates a fresh unique id").  The
source holds only a bare `HashMap` in `main`. -/
structure Ledger where
  nextId : Nat
  entries : List (Nat × Transaction)
deriving DecidableEq, Repr

/-- The empty ledger: no records, first generated id is 0. -/
def Ledger.empty : Ledger := ⟨0, []⟩

/-- Modelled from the spec: `get(id) -> Option<Transaction>` —
"read-only lookup; returns nothing if absent". -/
def Ledger.get (l : Ledger) (id : Nat) : Option Transaction :=
  lookupTx l.entries id

/-- Modelled from the spec: `count() -> usize` — "number of records
currently held". -/
def Ledger.count (l : Ledger) : Nat :=
  l.entries.length

/-- Modelled from the spec: `create(amount, currency) -> Transaction` —
"generates a fresh unique id, captures the current timestamp, sets
status to `Pending`, and returns the new record.  Does not itself insert
it."  Fails with `InvalidAmount` if the domain policy rejects the amount
(e.g., non-finite); fails with `InvalidCurrency` if the code is
malformed.  The current clock reading is passed in as `now`; the fresh
id is drawn from the ledger's id source. -/
def Ledger.create (l : Ledger) (now : Nat) (a : Amount) (c : String) :
    Except LedgerError Transaction × Ledger :=
  if ¬ amountValid a then (.error .InvalidAmount, l)
  else if ¬ currencyValid c then (.error .InvalidCurrency, l)
  else (.ok ⟨l.nextId, a, c, now, .Pending⟩, { l with nextId := l.nextId + 1 })

/-- Modelled from the spec: `insert(transaction) -> Result` — "stores
the record keyed by its id.  Fails with `DuplicateId` if the id already
exists in the ledger (idempotent rejection, not silent overwrite)."
The harness's insertion keyed by the record's own id is
`transactions.insert(tx.id, tx)` (src/src/main.rs line 42). -/
def Ledger.insert (l : Ledger) (tx : Transaction) :
    Except LedgerError Unit × Ledger :=
  match l.get tx.id with
  | some _ => (.error .DuplicateId, l)
  | none => (.ok (), { l with entries := (tx.id, tx) :: l.entries })

/-- Replace the status of the record stored under `id`, leaving every
other field and every other record unchanged. -/
def setStatus : List (Nat × Transaction) → Nat → TransactionStatus →
    List (Nat × Transaction)
  | [], _, _ => []
  | (k, tx) :: rest, id, s =>
    (k, if k = id then { tx with status := s } else tx) :: setStatus rest id s

/-- Modelled from the spec: `transition(id, new_status) -> Result` —
"applies a status change per the state machine.  Fails with `NotFound`
if the id is absent; fails with `InvalidTransition` if the requested
change is not permitted from the current state." -/
def Ledger.transition (l : Ledger) (id : Nat) (s : TransactionStatus) :
    Except LedgerError Unit × Ledger :=
  match l.get id with
  | none => (.error .NotFound, l)
  | some tx =>
    if allowedTransition tx.status s then
      (.ok (), { l with entries := setStatus l.entries id s })
    else (.error .InvalidTransition, l)

/-- One ledger operation of the interface of section 4.1, as invoked by
a caller: the arguments of `create` include the clock reading the call
would capture. -/
inductive Op where
  | createOp (now : Nat) (a : Amount) (c : String)
  | insertOp (tx : Transaction)
  | transitionOp (id : Nat) (s : TransactionStatus)
  | getOp (id : Nat)
  | countOp
deriving DecidableEq, Repr

/-- The ledger state after one operation (results are discarded; `get`
and `count` are read-only). -/
def runOp (l : Ledger) : Op → Ledger
  | .createOp now a c => (l.create now a c).2
  | .insertOp tx => (l.insert tx).2
  | .transitionOp id s => (l.transition id s).2
  | .getOp _ => l
  | .countOp => l

/-- The ledger state after a sequence of operations. -/
def run (l : Ledger) (ops : List Op) : Ledger :=
  ops.foldl runOp l

/-- A JSON value, the external representation targeted by the source's
derived `Serialize`/`Deserialize` instances (src/src/main.rs lines 9-23)
through `serde_json` (used in `test_transaction_serialization`). -/
inductive JsonValue where
  | jnull
  | jbool (b : Bool)
  | jnum (q : ℚ)
  | jstr (s : String)
  | jarr (xs : List JsonValue)
  | jobj (fields : List (String × JsonValue))

/-- Serialization of an amount, following `serde_json`'s treatment of
`f64`: finite values are written as JSON numbers (recovered exactly on
parse); the non-finite values `NaN` and the infinities are written as
`null`. -/
def Amount.serialize : Amount → JsonValue
  | .finite q => .jnum q
  | _ => .jnull

/-- Deserialization of an amount: only a JSON number parses as an `f64`
amount; `null` (the image of the non-finite values) is rejected. -/
def Amount.deserialize : JsonValue → Option Amount
  | .jnum q => some (.finite q)
  | _ => none

/-- Serialization of a status: the derived instance writes a unit enum
variant as its name string. -/
def TransactionStatus.serialize : TransactionStatus → JsonValue
  | .Pending => .jstr "Pending"
  | .Completed => .jstr "Completed"
  | .Failed => .jstr "Failed"

/-- Deserialization of a status from its variant-name string. -/
def TransactionStatus.deserialize : JsonValue → Option TransactionStatus
  | .jstr "Pending" => some .Pending
  | .jstr "Completed" => some .Completed
  | .jstr "Failed" => some .Failed
  | _ => none

/-- Serialization of an id or timestamp (modelled as `Nat`): a JSON
number. -/
def natSerialize (n : Nat) : JsonValue := .jnum (n : ℚ)

/-- Deserialization of an id or timestamp: a non-negative integral JSON
number. -/
def natDeserialize : JsonValue → Option Nat
  | .jnum q => if q.den = 1 ∧ 0 ≤ q.num then some q.num.toNat else none
  | _ => none

/-- Serialization of a transaction, following the derived `Serialize`
instance: an object with one field per struct field, in declaration
order. -/
def Transaction.serialize (tx : Transaction) : JsonValue :=
  .jobj [("id", natSerialize tx.id),
         ("amount", tx.amount.serialize),
         ("currency", .jstr tx.currency),
         ("timestamp", natSerialize tx.timestamp),
         ("status", tx.status.serialize)]

/-- Deserialization of a transaction, following the derived
`Deserialize` instance: each field is looked up by name in the object
and must parse at its type. -/
def Transaction.deserialize : JsonValue → Option Transaction
  | .jobj fields => do
    let id ← (fields.lookup "id").bind natDeserialize
    let amount ← (fields.lookup "amount").bind Amount.deserialize
    let currency ← match fields.lookup "currency" with
      | some (.jstr c) => some c
      | _ => none
    let timestamp ← (fields.lookup "timestamp").bind natDeserialize
    let status ← (fields.lookup "status").bind TransactionStatus.deserialize
    some ⟨id, amount, currency, timestamp, status⟩
  | _ => none

/-- A ledger is well formed when every stored id is below the fresh-id
source, so that the next generated id cannot collide with a stored
record; this is the precise content of "generates a fresh unique id"
for the counter-based id source of the model. -/
def Ledger.wf (l : Ledger) : Prop := ∀ p ∈ l.entries, p.1 < l.nextId

/-! ### Lemmas about lookup, setStatus and the operations -/

/-- Lookup fails exactly when the id is not among the stored keys. -/
theorem lookupTx_eq_none (es : List (Nat × Transaction)) (id : Nat) :
    lookupTx es id = none ↔ id ∉ es.map Prod.fst := by
  induction es with
  | nil => simp [lookupTx]
  | cons e rest ih =>
    obtain ⟨k, tx⟩ := e
    by_cases h : k = id
    · subst h
      simp [lookupTx]
    · simp [lookupTx, h, ih, Ne.symm h]

/-- Lookup after a status update: the record found at `j` is the one
found before, with its status replaced exactly when `j` is the updated
id. -/
theorem lookupTx_setStatus (es : List (Nat × Transaction)) (i j : Nat)
    (s : TransactionStatus) :
    lookupTx (setStatus es i s) j =
      (lookupTx es j).map
        (fun tx => if j = i then { tx with status := s } else tx) := by
  induction es with
  | nil => rfl
  | cons e rest ih =>
    obtain ⟨k, tx⟩ := e
    by_cases hkj : k = j
    · subst hkj
      by_cases hki : k = i
      · subst hki
        rw [setStatus, lookupTx, if_pos rfl, if_pos rfl, lookupTx, if_pos rfl,
          Option.map_some', if_pos rfl]
      · rw [setStatus, lookupTx, if_neg hki, if_pos rfl, lookupTx, if_pos rfl,
          Option.map_some', if_neg hki]
    · rw [setStatus, lookupTx, if_neg hkj, lookupTx, if_neg hkj, ih]

/-- A status update does not change the stored keys. -/
theorem keys_setStatus (es : List (Nat × Transaction)) (i : Nat)
    (s : TransactionStatus) :
    (setStatus es i s).map Prod.fst = es.map Prod.fst := by
  induction es with
  | nil => rfl
  | cons e rest ih =>
    obtain ⟨k, tx⟩ := e
    rw [setStatus, List.map_cons, List.map_cons, ih]

/-- No transition is permitted out of a terminal state. -/
theorem terminal_no_transition (st s : TransactionStatus)
    (h : st.isTerminal = true) : allowedTransition st s = false := by
  cases st <;> cases s <;>
    simp_all [TransactionStatus.isTerminal, allowedTransition]

/-- `create` never touches the stored records. -/
theorem create_entries (l : Ledger) (now : Nat) (a : Amount) (c : String) :
    ((l.create now a c).2).entries = l.entries := by
  unfold Ledger.create
  split
  · rfl
  · split <;> rfl

/-- On valid inputs `create` returns the fresh-id record with the given
amount, currency and clock reading, status `Pending`, and advances the
id source. -/
theorem create_ok (l : Ledger) (now : Nat) (a : Amount) (c : String)
    (ha : amountValid a = true) (hc : currencyValid c = true) :
    l.create now a c =
      (.ok ⟨l.nextId, a, c, now, .Pending⟩,
        { l with nextId := l.nextId + 1 }) := by
  unfold Ledger.create
  simp [ha, hc]

/-- `insert` on an already-present id rejects with `DuplicateId` and
leaves the ledger unchanged. -/
theorem insert_of_get_some (l : Ledger) (tx r : Transaction)
    (h : l.get tx.id = some r) : l.insert tx = (.error .DuplicateId, l) := by
  unfold Ledger.insert
  simp only [h]

/-- `insert` on an absent id stores the record keyed by its own id. -/
theorem insert_of_get_none (l : Ledger) (tx : Transaction)
    (h : l.get tx.id = none) :
    l.insert tx = (.ok (), { l with entries := (tx.id, tx) :: l.entries }) := by
  unfold Ledger.insert
  simp only [h]

/-- `transition` on an absent id rejects with `NotFound` and leaves the
ledger unchanged. -/
theorem transition_of_get_none (l : Ledger) (id : Nat)
    (s : TransactionStatus) (h : l.get id = none) :
    l.transition id s = (.error .NotFound, l) := by
  unfold Ledger.transition
  simp only [h]

/-- `transition` on a stored record whose state permits the change
updates exactly that record's status. -/
theorem transition_allowed (l : Ledger) (id : Nat) (s : TransactionStatus)
    (tx : Transaction) (h : l.get id = some tx)
    (hall : allowedTransition tx.status s = true) :
    l.transition id s =
      (.ok (), { l with entries := setStatus l.entries id s }) := by
  unfold Ledger.transition
  simp only [h, hall, if_true]

/-- `transition` on a stored record whose state forbids the change
rejects with `InvalidTransition` and leaves the ledger unchanged. -/
theorem transition_not_allowed (l : Ledger) (id : Nat)
    (s : TransactionStatus) (tx : Transaction) (h : l.get id = some tx)
    (hall : ¬ allowedTransition tx.status s = true) :
    l.transition id s = (.error .InvalidTransition, l) := by
  unfold Ledger.transition
  simp [h, hall]

/-- A record in a terminal state is untouched by any single operation:
whatever one call does, the record stored under its id stays exactly the
same. -/
theorem get_runOp_of_terminal (l : Ledger) (id : Nat) (tx : Transaction)
    (hget : l.get id = some tx) (hterm : tx.status.isTerminal = true)
    (op : Op) : (runOp l op).get id = some tx := by
  cases op with
  | createOp now a c =>
    show ((l.create now a c).2).get id = some tx
    unfold Ledger.get
    rw [create_entries]
    exact hget
  | insertOp tx' =>
    show ((l.insert tx').2).get id = some tx
    cases h : l.get tx'.id with
    | some r => rw [insert_of_get_some l tx' r h]; exact hget
    | none =>
      rw [insert_of_get_none l tx' h]
      have hne : tx'.id ≠ id := by
        intro he
        rw [he, hget] at h
        exact Option.noConfusion h
      show lookupTx ((tx'.id, tx') :: l.entries) id = some tx
      rw [lookupTx, if_neg hne]
      exact hget
  | transitionOp j s =>
    show ((l.transition j s).2).get id = some tx
    cases h : l.get j with
    | none => rw [transition_of_get_none l j s h]; exact hget
    | some tx2 =>
      by_cases hall : allowedTransition tx2.status s = true
      · rw [transition_allowed l j s tx2 h hall]
        show lookupTx (setStatus l.entries j s) id = some tx
        have hget2 : lookupTx l.entries id = some tx := hget
        rw [lookupTx_setStatus, hget2, Option.map_some']
        have hij : id ≠ j := by
          intro he
          subst he
          rw [hget] at h
          injection h with h2
          subst h2
          rw [terminal_no_transition _ s hterm] at hall
          exact Bool.noConfusion hall
        rw [if_neg hij]
      · rw [transition_not_allowed l j s tx2 h hall]; exact hget
  | getOp _ => exact hget
  | countOp => exact hget

/-- A record in a terminal state is untouched by any sequence of
operations. -/
theorem get_run_of_terminal (ops : List Op) (l : Ledger) (id : Nat)
    (tx : Transaction) (hget : l.get id = some tx)
    (hterm : tx.status.isTerminal = true) :
    (run l ops).get id = some tx := by
  induction ops generalizing l with
  | nil => exact hget
  | cons op rest ih => exact ih _ (get_runOp_of_terminal l id tx hget hterm op)

/-- Every single operation preserves distinctness of the stored ids. -/
theorem nodupKeys_runOp (l : Ledger)
    (h : (l.entries.map Prod.fst).Nodup) (op : Op) :
    ((runOp l op).entries.map Prod.fst).Nodup := by
  cases op with
  | createOp now a c =>
    show (((l.create now a c).2).entries.map Prod.fst).Nodup
    rw [create_entries]
    exact h
  | insertOp tx' =>
    show (((l.insert tx').2).entries.map Prod.fst).Nodup
    cases hg : l.get tx'.id with
    | some r => rw [insert_of_get_some l tx' r hg]; exact h
    | none =>
      rw [insert_of_get_none l tx' hg]
      show ((tx'.id :: l.entries.map Prod.fst)).Nodup
      exact List.nodup_cons.2 ⟨(lookupTx_eq_none _ _).1 hg, h⟩
  | transitionOp j s =>
    show (((l.transition j s).2).entries.map Prod.fst).Nodup
    cases hg : l.get j with
    | none => rw [transition_of_get_none l j s hg]; exact h
    | some tx2 =>
      by_cases hall : allowedTransition tx2.status s = true
      · rw [transition_allowed l j s tx2 hg hall]
        show ((setStatus l.entries j s).map Prod.fst).Nodup
        rw [keys_setStatus]
        exact h
      · rw [transition_not_allowed l j s tx2 hg hall]; exact h
  | getOp _ => exact h
  | countOp => exact h

/-- Every sequence of operations preserves distinctness of the stored
ids. -/
theorem nodupKeys_run (ops : List Op) (l : Ledger)
    (h : (l.entries.map Prod.fst).Nodup) :
    ((run l ops).entries.map Prod.fst).Nodup := by
  induction ops generalizing l with
  | nil => exact h
  | cons op rest ih => exact ih _ (nodupKeys_runOp l h op)

/-- A status update preserves the property that every entry is keyed by
its record's own id. -/
theorem keyed_setStatus (es : List (Nat × Transaction)) (i : Nat)
    (s : TransactionStatus) (h : ∀ p ∈ es, p.1 = p.2.id) :
    ∀ p ∈ setStatus es i s, p.1 = p.2.id := by
  induction es with
  | nil => intro p hp; cases hp
  | cons e rest ih =>
    obtain ⟨k, tx⟩ := e
    intro p hp
    rw [setStatus] at hp
    rcases List.mem_cons.1 hp with hphead | hptail
    · subst hphead
      by_cases hki : k = i
      · rw [if_pos hki]
        exact h (k, tx) (List.mem_cons_self _ _)
      · rw [if_neg hki]
        exact h (k, tx) (List.mem_cons_self _ _)
    · exact ih (fun q hq => h q (List.mem_cons_of_mem _ hq)) p hptail

/-- Every single operation preserves the property that every entry is
keyed by its record's own id. -/
theorem keyed_runOp (l : Ledger) (h : ∀ p ∈ l.entries, p.1 = p.2.id)
    (op : Op) : ∀ p ∈ (runOp l op).entries, p.1 = p.2.id := by
  cases op with
  | createOp now a c =>
    show ∀ p ∈ ((l.create now a c).2).entries, p.1 = p.2.id
    rw [create_entries]
    exact h
  | insertOp tx' =>
    show ∀ p ∈ ((l.insert tx').2).entries, p.1 = p.2.id
    cases hg : l.get tx'.id with
    | some r => rw [insert_of_get_some l tx' r hg]; exact h
    | none =>
      rw [insert_of_get_none l tx' hg]
      intro p hp
      rcases List.mem_cons.1 hp with hphead | hptail
      · subst hphead; rfl
      · exact h p hptail
  | transitionOp j s =>
    show ∀ p ∈ ((l.transition j s).2).entries, p.1 = p.2.id
    cases hg : l.get j with
    | none => rw [transition_of_get_none l j s hg]; exact h
    | some tx2 =>
      by_cases hall : allowedTransition tx2.status s = true
      · rw [transition_allowed l j s tx2 hg hall]
        exact keyed_setStatus l.entries j s h
      · rw [transition_not_allowed l j s tx2 hg hall]; exact h
  | getOp _ => exact h
  | countOp => exact h

/-- Every sequence of operations preserves the property that every
entry is keyed by its record's own id. -/
theorem keyed_run (ops : List Op) (l : Ledger)
    (h : ∀ p ∈ l.entries, p.1 = p.2.id) :
    ∀ p ∈ (run l ops).entries, p.1 = p.2.id := by
  induction ops generalizing l with
  | nil => exact h
  | cons op rest ih => exact ih _ (keyed_runOp l h op)

/-- Ids and timestamps survive the round trip through their JSON
encoding. -/
theorem natRoundTrip (n : Nat) : natDeserialize (natSerialize n) = some n := by
  simp [natSerialize, natDeserialize]

/-- Finite amounts survive the round trip through their JSON encoding. -/
theorem amountRoundTrip (a : Amount) (h : a.isFinite = true) :
    Amount.deserialize a.serialize = some a := by
  cases a <;> simp_all [Amount.isFinite, Amount.serialize, Amount.deserialize]

/-- Statuses survive the round trip through their JSON encoding. -/
theorem statusRoundTrip (s : TransactionStatus) :
    TransactionStatus.deserialize s.serialize = some s := by
  cases s <;> rfl

/-! ### The claims -/

/-- Claim C1: for every ledger state and every transaction whose id
already exists in the ledger, `insert` of that transaction fails with
`DuplicateId` (it does not silently overwrite the stored record), and
after the rejected insert the ledger's count and its stored records are
unchanged. -/
theorem insert_duplicate_rejected (l : Ledger) (tx : Transaction)
    (h : ∃ r, l.get tx.id = some r) :
    (l.insert tx).1 = .error .DuplicateId ∧ (l.insert tx).2 = l ∧
      (l.insert tx).2.count = l.count ∧
      ∀ j, (l.insert tx).2.get j = l.get j := by
  obtain ⟨r, hr⟩ := h
  rw [insert_of_get_some l tx r hr]
  exact ⟨rfl, rfl, rfl, fun j => rfl⟩

/-- Witness for claim C1: a ledger holding a record with id 0 rejects a
second insert under id 0 with `DuplicateId`. -/
theorem insert_duplicate_rejected_witness :
    (Ledger.insert ⟨1, [(0, ⟨0, .finite 5, "USD", 0, .Pending⟩)]⟩
      ⟨0, .finite 7, "EUR", 3, .Pending⟩).1 = .error .DuplicateId :=
  (insert_duplicate_rejected ⟨1, [(0, ⟨0, .finite 5, "USD", 0, .Pending⟩)]⟩
    ⟨0, .finite 7, "EUR", 3, .Pending⟩
    ⟨⟨0, .finite 5, "USD", 0, .Pending⟩, rfl⟩).1

/-- Claim C2: for every stored transaction whose status is `Completed`
or `Failed`, every transition call on its id fails with
`InvalidTransition` and leaves the ledger (hence the stored status)
unchanged; moreover no sequence of ledger operations ever changes the
record again. -/
theorem terminal_frozen (l : Ledger) (id : Nat) (tx : Transaction)
    (hget : l.get id = some tx)
    (hterm : tx.status = .Completed ∨ tx.status = .Failed) :
    (∀ s, (l.transition id s).1 = .error .InvalidTransition ∧
      (l.transition id s).2 = l ∧
      ((l.transition id s).2.get id).map Transaction.status
        = some tx.status) ∧
    (∀ ops, (run l ops).get id = some tx) := by
  have hterm' : tx.status.isTerminal = true := by
    rcases hterm with h | h <;> rw [h] <;> rfl
  constructor
  · intro s
    have hall : ¬ allowedTransition tx.status s = true := by
      rw [terminal_no_transition _ s hterm']
      simp
    rw [transition_not_allowed l id s tx hget hall]
    exact ⟨rfl, rfl, by rw [hget]; rfl⟩
  · intro ops
    exact get_run_of_terminal ops l id tx hget hterm'

/-- Witness for claim C2: a `Completed` record rejects a transition to
`Failed`, and survives a transition attempt followed by an insert
attempt unchanged. -/
theorem terminal_frozen_witness :
    (Ledger.transition ⟨1, [(0, ⟨0, .finite 5, "USD", 2, .Completed⟩)]⟩
        0 .Failed).1 = .error .InvalidTransition ∧
    (run ⟨1, [(0, ⟨0, .finite 5, "USD", 2, .Completed⟩)]⟩
        [.transitionOp 0 .Failed,
         .insertOp ⟨0, .finite 9, "EUR", 4, .Pending⟩]).get 0
      = some ⟨0, .finite 5, "USD", 2, .Completed⟩ :=
  ⟨((terminal_frozen ⟨1, [(0, ⟨0, .finite 5, "USD", 2, .Completed⟩)]⟩ 0
      ⟨0, .finite 5, "USD", 2, .Completed⟩ rfl (Or.inl rfl)).1 .Failed).1,
   (terminal_frozen ⟨1, [(0, ⟨0, .finite 5, "USD", 2, .Completed⟩)]⟩ 0
      ⟨0, .finite 5, "USD", 2, .Completed⟩ rfl (Or.inl rfl)).2
    [.transitionOp 0 .Failed,
     .insertOp ⟨0, .finite 9, "EUR", 4, .Pending⟩]⟩

/-- Claim C3: on a well-formed ledger and valid `(amount, currency)`
inputs, `create` returns a record carrying a fresh id (not stored in the
ledger), the supplied clock reading as timestamp, status `Pending`, and
the given amount and currency; inserting that record succeeds and `get`
on its id then returns the record with the same amount, currency and
status `Pending`. -/
theorem create_then_insert_get (l : Ledger) (now : Nat) (a : Amount)
    (c : String) (ha : amountValid a = true) (hc : currencyValid c = true)
    (hwf : Ledger.wf l) :
    ∃ tx l', l.create now a c = (.ok tx, l') ∧
      tx.id = l.nextId ∧ l.get tx.id = none ∧
      tx.amount = a ∧ tx.currency = c ∧ tx.timestamp = now ∧
      tx.status = .Pending ∧
      (l'.insert tx).1 = .ok () ∧
      ((l'.insert tx).2).get tx.id = some tx := by
  have hfresh : l.get l.nextId = none := by
    apply (lookupTx_eq_none _ _).2
    intro hmem
    obtain ⟨p, hp, hp1⟩ := List.mem_map.1 hmem
    exact absurd (hp1 ▸ hwf p hp) (lt_irrefl _)
  refine ⟨⟨l.nextId, a, c, now, .Pending⟩, { l with nextId := l.nextId + 1 },
    create_ok l now a c ha hc, rfl, hfresh, rfl, rfl, rfl, rfl, ?_, ?_⟩
  · rw [insert_of_get_none _ _ hfresh]
  · rw [insert_of_get_none _ _ hfresh]
    show lookupTx ((l.nextId, _) :: l.entries) l.nextId = _
    rw [lookupTx, if_pos rfl]

/-- Witness for claim C3: creating amount 1 in currency "USD" on the
empty ledger and inserting the result makes it retrievable unchanged. -/
theorem create_then_insert_get_witness :
    amountValid (.finite 1) = true ∧ currencyValid "USD" = true ∧
    (∃ tx l', Ledger.empty.create 7 (.finite 1) "USD" = (.ok tx, l') ∧
      tx.id = Ledger.empty.nextId ∧ Ledger.empty.get tx.id = none ∧
      tx.amount = .finite 1 ∧ tx.currency = "USD" ∧ tx.timestamp = 7 ∧
      tx.status = .Pending ∧
      (l'.insert tx).1 = .ok () ∧
      ((l'.insert tx).2).get tx.id = some tx) :=
  ⟨by decide, by decide,
    create_then_insert_get Ledger.empty 7 (.finite 1) "USD" (by decide)
      (by decide) (fun p hp => absurd hp (List.not_mem_nil p))⟩

/-- Claim C4: for every ledger state and every id not present in the
ledger, `transition(id, new_status)` fails with `NotFound` for every
requested new status, and the ledger is unchanged. -/
theorem transition_absent_not_found (l : Ledger) (id : Nat)
    (h : l.get id = none) :
    ∀ s, (l.transition id s).1 = .error .NotFound ∧
      (l.transition id s).2 = l := by
  intro s
  rw [transition_of_get_none l id s h]
  exact ⟨rfl, rfl⟩

/-- Witness for claim C4: transitioning the never-inserted id 5 on the
empty ledger fails with `NotFound`. -/
theorem transition_absent_not_found_witness :
    (Ledger.transition Ledger.empty 5 .Completed).1 = .error .NotFound :=
  (transition_absent_not_found Ledger.empty 5 rfl .Completed).1

/-- Counterexample to claim C5 as stated: a transaction whose amount is
the non-finite value `NaN` does not survive the round trip, because the
external encoding writes a non-finite `f64` as `null`, which does not
parse back as an amount. -/
theorem serialize_roundtrip_cex :
    Transaction.deserialize
        (Transaction.serialize ⟨0, Amount.nan, "USD", 0, .Pending⟩)
      ≠ some ⟨0, Amount.nan, "USD", 0, .Pending⟩ := by
  decide

/-- Claim C5 (amended): for every Transaction record whose amount is
finite, serializing it to its external representation and deserializing
the result reproduces a record equal to the original in id, amount,
currency, timestamp and status. -/
theorem serialize_roundtrip_finite (tx : Transaction)
    (h : tx.amount.isFinite = true) :
    Transaction.deserialize tx.serialize = some tx := by
  obtain ⟨i, a, c, t, s⟩ := tx
  simp only [Transaction.serialize, Transaction.deserialize, List.lookup]
  simp [natRoundTrip, amountRoundTrip _ h, statusRoundTrip]

/-- Witness for claim C5 (amended): a concrete finite-amount record
round-trips unchanged. -/
theorem serialize_roundtrip_finite_witness :
    Transaction.deserialize
        (Transaction.serialize ⟨3, .finite 5, "GBP", 9, .Completed⟩)
      = some ⟨3, .finite 5, "GBP", 9, .Completed⟩ :=
  serialize_roundtrip_finite ⟨3, .finite 5, "GBP", 9, .Completed⟩ (by decide)

/-- Claim C6: in every ledger state reachable from the empty ledger by
any sequence of create, insert, get, transition and count operations,
the stored ids are pairwise distinct: the ledger never holds two records
with the same id. -/
theorem reachable_ids_unique (ops : List Op) :
    ((run Ledger.empty ops).entries.map Prod.fst).Nodup :=
  nodupKeys_run ops Ledger.empty List.nodup_nil

/-- Claim C7: `create` fails with `InvalidAmount` on every amount the
domain policy rejects (the non-finite ones); on a policy-accepted amount
it fails with `InvalidCurrency` on every malformed currency code; and it
succeeds exactly on inputs passing both validations. -/
theorem create_validates (l : Ledger) (now : Nat) (a : Amount)
    (c : String) :
    (amountValid a = false → (l.create now a c).1 = .error .InvalidAmount) ∧
    (amountValid a = true → currencyValid c = false →
      (l.create now a c).1 = .error .InvalidCurrency) ∧
    ((∃ tx, (l.create now a c).1 = .ok tx) ↔
      amountValid a = true ∧ currencyValid c = true) := by
  refine ⟨fun ha => ?_, fun ha hc => ?_, ?_⟩
  · unfold Ledger.create
    simp [ha]
  · unfold Ledger.create
    simp [ha, hc]
  · constructor
    · rintro ⟨tx, htx⟩
      by_cases ha : amountValid a = true
      · by_cases hc : currencyValid c = true
        · exact ⟨ha, hc⟩
        · rw [Ledger.create] at htx
          simp [ha, hc] at htx
      · rw [Ledger.create] at htx
        simp [ha] at htx
    · rintro ⟨ha, hc⟩
      exact ⟨_, by rw [create_ok l now a c ha hc]⟩

/-- Witness for claim C7: a `NaN` amount is rejected with
`InvalidAmount`, and a lower-case currency code with a finite amount is
rejected with `InvalidCurrency`. -/
theorem create_validates_witness :
    (Ledger.empty.create 0 .nan "USD").1 = .error .InvalidAmount ∧
    (Ledger.empty.create 0 (.finite 1) "usd").1 = .error .InvalidCurrency :=
  ⟨(create_validates Ledger.empty 0 .nan "USD").1 (by decide),
   (create_validates Ledger.empty 0 (.finite 1) "usd").2.1
     (by decide) (by decide)⟩

/-- Claim C8: for every stored transaction and every transition call
(on any id, succeeding or failing), the record stored under its key
afterwards has the same id, amount, currency and timestamp as before:
only the status field can ever change. -/
theorem transition_frame (l : Ledger) (id : Nat) (s : TransactionStatus)
    (j : Nat) (tx : Transaction) (h : l.get j = some tx) :
    ∃ tx', ((l.transition id s).2).get j = some tx' ∧
      tx'.id = tx.id ∧ tx'.amount = tx.amount ∧
      tx'.currency = tx.currency ∧ tx'.timestamp = tx.timestamp := by
  cases hg : l.get id with
  | none =>
    rw [transition_of_get_none l id s hg]
    exact ⟨tx, h, rfl, rfl, rfl, rfl⟩
  | some tx2 =>
    by_cases hall : allowedTransition tx2.status s = true
    · rw [transition_allowed l id s tx2 hg hall]
      have h2 : lookupTx l.entries j = some tx := h
      refine ⟨if j = id then { tx with status := s } else tx, ?_, ?_, ?_, ?_, ?_⟩
      · show lookupTx (setStatus l.entries id s) j = _
        rw [lookupTx_setStatus, h2, Option.map_some']
      all_goals by_cases hji : j = id <;> simp [hji]
    · rw [transition_not_allowed l id s tx2 hg hall]
      exact ⟨tx, h, rfl, rfl, rfl, rfl⟩

/-- Witness for claim C8: a successful transition to `Completed` keeps
the record's id, amount, currency and timestamp. -/
theorem transition_frame_witness :
    ∃ tx', ((Ledger.transition ⟨1, [(0, ⟨0, .finite 5, "USD", 2, .Pending⟩)]⟩
        0 .Completed).2).get 0 = some tx' ∧
      tx'.id = 0 ∧ tx'.amount = .finite 5 ∧ tx'.currency = "USD" ∧
      tx'.timestamp = 2 :=
  transition_frame ⟨1, [(0, ⟨0, .finite 5, "USD", 2, .Pending⟩)]⟩ 0
    .Completed 0 ⟨0, .finite 5, "USD", 2, .Pending⟩ rfl

/-- Claim C9: the concrete scenario — creating a transaction with
amount 100.50 (the rational 201/2) and currency "USD" yields status
`Pending`; inserting it into the (record-empty) ledger makes `count`
return 1; transitioning it to `Completed` makes `get` report status
`Completed`; a subsequent transition to `Failed` returns
`InvalidTransition` with the stored status unchanged. -/
theorem concrete_scenario_usd :
    Ledger.empty.count = 0 ∧
    Ledger.empty.create 0 (.finite (201/2)) "USD"
      = (.ok ⟨0, .finite (201/2), "USD", 0, .Pending⟩, ⟨1, []⟩) ∧
    Ledger.insert ⟨1, []⟩ ⟨0, .finite (201/2), "USD", 0, .Pending⟩
      = (.ok (), ⟨1, [(0, ⟨0, .finite (201/2), "USD", 0, .Pending⟩)]⟩) ∧
    Ledger.count ⟨1, [(0, ⟨0, .finite (201/2), "USD", 0, .Pending⟩)]⟩ = 1 ∧
    Ledger.transition ⟨1, [(0, ⟨0, .finite (201/2), "USD", 0, .Pending⟩)]⟩
        0 .Completed
      = (.ok (), ⟨1, [(0, ⟨0, .finite (201/2), "USD", 0, .Completed⟩)]⟩) ∧
    (Ledger.get ⟨1, [(0, ⟨0, .finite (201/2), "USD", 0, .Completed⟩)]⟩ 0).map
        Transaction.status = some .Completed ∧
    Ledger.transition ⟨1, [(0, ⟨0, .finite (201/2), "USD", 0, .Completed⟩)]⟩
        0 .Failed
      = (.error .InvalidTransition,
         ⟨1, [(0, ⟨0, .finite (201/2), "USD", 0, .Completed⟩)]⟩) :=
  ⟨rfl, rfl, rfl, rfl, rfl, rfl, rfl⟩

/-- Claim C10: in every ledger state reachable from the empty ledger,
every entry's key equals the id field of the transaction stored under
it, because records are always inserted keyed by their own id. -/
theorem entries_keyed_by_own_id (ops : List Op) :
    ∀ p ∈ (run Ledger.empty ops).entries, p.1 = p.2.id :=
  keyed_run ops Ledger.empty (fun p hp => absurd hp (List.not_mem_nil p))

/-- Witness for claim C10: after inserting a record with id 5, the
entry stored for it is keyed by 5, its own id. -/
theorem entries_keyed_by_own_id_witness :
    (5, (⟨5, .finite 1, "USD", 0, .Pending⟩ : Transaction)).1
      = (5, (⟨5, .finite 1, "USD", 0, .Pending⟩ : Transaction)).2.id :=
  entries_keyed_by_own_id [.insertOp ⟨5, .finite 1, "USD", 0, .Pending⟩]
    (5, ⟨5, .finite 1, "USD", 0, .Pending⟩) (by decide)
